import Mathlib

/-!
Shallow embedding of the Drip contract (multi-keyed drip ledger with a fan-out
collection protocol and a withdraw/confirm/refund redemption protocol).

The ledger operations are transcribed from src/src/ntft/core_impl.rs (the
src/src/ft/core_impl.rs snapshot has the same deposit/withdraw/register logic,
minus event emission, which we do not model).  The orchestration entry points
are transcribed from src/src/lib.rs (ft_collect), src/src/resolver.rs
(resolve_collect), src/src/utils.rs (get_root_id) and src/src/internal.rs
(internal_set_drip).  Panics (env::panic_str, expect, unwrap, assert) abort the
whole NEAR invocation and revert every state write, so fallible operations are
embedded as Option / Except values; `none` / `.error` means the call panicked
and the caller-visible state is unchanged.  Machine integers (u128 balances)
are embedded as Nat with explicit bounds checks against 2 ^ 128.
-/

namespace Drip

/-- NEAR account identifiers, abstracted as strings. -/
abbrev AccountId := String

/-- One past the largest u128 value; `Balance` is u128 in the source. -/
def U128LIM : Nat := 2 ^ 128

/-- u128 `checked_add`: `none` models arithmetic overflow. -/
def checkedAdd (a b : Nat) : Option Nat :=
  if a + b < U128LIM then some (a + b) else none

/-- u128 `checked_sub`: `none` models underflow. -/
def checkedSub (a b : Nat) : Option Nat :=
  if b ≤ a then some (a - b) else none

/-- Insert into an association list, replacing the first binding of the key;
models `LookupMap::insert` / `UnorderedMap::insert`. -/
def alInsert {α β : Type} [DecidableEq α] (k : α) (v : β) : List (α × β) → List (α × β)
  | [] => [(k, v)]
  | (k', v') :: t => if k = k' then (k, v) :: t else (k', v') :: alInsert k v t

/-- Lookup in an association list; models `LookupMap::get` / `UnorderedMap::get`. -/
def alGet {α β : Type} [DecidableEq α] (k : α) : List (α × β) → Option β
  | [] => none
  | (k', v') :: t => if k = k' then some v' else alGet k t

/-- The per-account sub-map: slot key `none` is the global balance view,
`some source` a balance attributed to that source contract. -/
abbrev SlotMap := List (Option AccountId × Nat)

/-- State of the `FungibleToken` struct from src/src/ntft/core_impl.rs
(`accounts : LookupMap<AccountId, UnorderedMap<Option<AccountId>, Balance>>`,
`total_supply : Balance`, `account_storage_usage : StorageUsage`). -/
structure FungibleToken where
  accounts : List (AccountId × SlotMap)
  total_supply : Nat
  account_storage_usage : Nat
deriving DecidableEq, Repr

/-- Sum of `f` over the values of an association list. -/
def sumF {α β : Type} (f : β → Nat) (l : List (α × β)) : Nat :=
  (l.map fun p => f p.2).sum

/-- Sum of the balances stored in one account sub-map. -/
def sumSlots (m : SlotMap) : Nat := sumF (fun b => b) m

/-- Sum over all (account, source) entries of all registered accounts. -/
def sumAll (accounts : List (AccountId × SlotMap)) : Nat := sumF sumSlots accounts

/-- `internal_deposit` from src/src/ntft/core_impl.rs lines 64-83: panics if the
account or the (account, source) slot is absent, checks the slot balance for
overflow, writes the slot, then checks `total_supply` for overflow (a late
panic still reverts the slot write, which `none` models). -/
def internal_deposit (ft : FungibleToken) (account_id : AccountId) (amount : Nat)
    (contract_id : Option AccountId) : Option FungibleToken :=
  match alGet account_id ft.accounts with
  | none => none
  | some account =>
    match alGet contract_id account with
    | none => none
    | some balance =>
      match checkedAdd balance amount with
      | none => none
      | some new_balance =>
        match checkedAdd ft.total_supply amount with
        | none => none
        | some ts =>
            some ⟨alInsert account_id (alInsert contract_id new_balance account) ft.accounts,
              ts, ft.account_storage_usage⟩

/-- `internal_withdraw` from src/src/ntft/core_impl.rs lines 85-104: symmetric to
deposit with `checked_sub` on the slot balance and on `total_supply`. -/
def internal_withdraw (ft : FungibleToken) (account_id : AccountId) (amount : Nat)
    (contract_id : Option AccountId) : Option FungibleToken :=
  match alGet account_id ft.accounts with
  | none => none
  | some account =>
    match alGet contract_id account with
    | none => none
    | some balance =>
      match checkedSub balance amount with
      | none => none
      | some new_balance =>
        match checkedSub ft.total_supply amount with
        | none => none
        | some ts =>
            some ⟨alInsert account_id (alInsert contract_id new_balance account) ft.accounts,
              ts, ft.account_storage_usage⟩

/-- `internal_register_account` from src/src/ntft/core_impl.rs lines 107-115:
creates an empty sub-map for the account, panics if it already exists.  The
snapshot has an extra `contract_id` argument used only to build the storage key
prefix of the fresh empty map, with no effect on the abstract state, so it is
dropped here (lib.rs calls the one-argument variant). -/
def internal_register_account (ft : FungibleToken) (account_id : AccountId) :
    Option FungibleToken :=
  match alGet account_id ft.accounts with
  | some _ => none
  | none => some ⟨alInsert account_id [] ft.accounts, ft.total_supply, ft.account_storage_usage⟩

/-- `ft_balance_by_contract` from src/src/ntft/core_impl.rs lines 224-229: reads
are total, returning 0 for unregistered accounts or unpopulated slots. -/
def ft_balance_by_contract (ft : FungibleToken) (account_id : AccountId)
    (contract_id : Option AccountId) : Nat :=
  match alGet account_id ft.accounts with
  | some account => (alGet contract_id account).getD 0
  | none => 0

/-- The account is registered (its sub-map exists). -/
def accountRegistered (ft : FungibleToken) (account_id : AccountId) : Bool :=
  (alGet account_id ft.accounts).isSome

/-- The (account, source) slot exists. -/
def slotExists (ft : FungibleToken) (account_id : AccountId)
    (contract_id : Option AccountId) : Bool :=
  match alGet account_id ft.accounts with
  | some account => (alGet contract_id account).isSome
  | none => false

/-- Initial ledger state: no accounts, zero total supply
(`FungibleToken::new`, with the storage-measurement bookkeeping abstracted). -/
def initialToken : FungibleToken := ⟨[], 0, 0⟩

/-- A ledger operation for the conservation claim. -/
inductive Op
  | register (a : AccountId)
  | deposit (a : AccountId) (amt : Nat) (c : Option AccountId)
  | withdraw (a : AccountId) (amt : Nat) (c : Option AccountId)

/-- Run one ledger operation. -/
def runOp (ft : FungibleToken) : Op → Option FungibleToken
  | .register a => internal_register_account ft a
  | .deposit a amt c => internal_deposit ft a amt c
  | .withdraw a amt c => internal_withdraw ft a amt c

/-- Run a sequence of ledger operations; `some` means every one succeeded. -/
def runOps (ft : FungibleToken) : List Op → Option FungibleToken
  | [] => some ft
  | op :: t =>
    match runOp ft op with
    | none => none
    | some ft' => runOps ft' t

/-- One observable step of `internal_deposit`, in source statement order, used to
settle whether every check precedes every write. -/
inductive LedgerEv
  | checkBalanceOverflow (ok : Bool)
  | writeSlot
  | writeAccounts
  | checkSupplyOverflow (ok : Bool)
  | writeSupply
deriving DecidableEq, Repr

/-- The event is a state write. -/
def isWriteEv : LedgerEv → Bool
  | .writeSlot => true
  | .writeAccounts => true
  | .writeSupply => true
  | _ => false

/-- The event is an overflow check. -/
def isCheckEv : LedgerEv → Bool
  | .checkBalanceOverflow _ => true
  | .checkSupplyOverflow _ => true
  | _ => false

/-- True when no check event occurs after any write event, that is, every check
precedes every write in the trace. -/
def checksPrecedeWrites : List LedgerEv → Bool
  | [] => true
  | e :: rest =>
    if isWriteEv e then rest.all (fun x => !isCheckEv x) && checksPrecedeWrites rest
    else checksPrecedeWrites rest

/-- `internal_deposit` again, with its checks and writes recorded in the order the
source performs them (src/src/ntft/core_impl.rs lines 64-83): the balance
overflow check, then `account.insert`, then `self.accounts.insert`, then the
total-supply overflow check, then the `total_supply` write. -/
def internal_deposit_trace (ft : FungibleToken) (account_id : AccountId) (amount : Nat)
    (contract_id : Option AccountId) : List LedgerEv × Option FungibleToken :=
  match alGet account_id ft.accounts with
  | none => ([], none)
  | some account =>
    match alGet contract_id account with
    | none => ([], none)
    | some balance =>
      if balance + amount < U128LIM then
        if ft.total_supply + amount < U128LIM then
          ([.checkBalanceOverflow true, .writeSlot, .writeAccounts,
              .checkSupplyOverflow true, .writeSupply],
            some ⟨alInsert account_id (alInsert contract_id (balance + amount) account)
              ft.accounts, ft.total_supply + amount, ft.account_storage_usage⟩)
        else
          ([.checkBalanceOverflow true, .writeSlot, .writeAccounts,
              .checkSupplyOverflow false], none)
      else ([.checkBalanceOverflow false], none)

/-- Outcome of a remote call as seen by a resolver callback
(`env::promise_result`); a successful payload is abstracted by the result of
parsing it as a JSON `U128` (`none` = unparseable bytes). -/
inductive PromiseResult
  | notReady
  | successful (parsed : Option Nat)
  | failed
deriving DecidableEq, Repr

/-- Tail of `internal_ft_resolve_burn` (src/src/ntft/core_impl.rs lines 194-198):
credit the refund back when positive, else leave the ledger untouched; returns
(used amount, burned amount). -/
def resolveRefund (ft : FungibleToken) (owner_id : AccountId) (amount : Nat)
    (contract_id : AccountId) (refund_amount : Nat) : Option (FungibleToken × Nat × Nat) :=
  if 0 < refund_amount then
    match internal_deposit ft owner_id refund_amount (some contract_id) with
    | none => none
    | some ft' => some (ft', amount - refund_amount, 0)
  else some (ft, amount, 0)

/-- `internal_ft_resolve_burn` from src/src/ntft/core_impl.rs lines 173-199:
reconciles the redemption debit from the remote call outcome.  `notReady`
aborts (`env::abort`); a parseable reply gives `refund = min(amount, unused)`;
an unparseable reply or an outright failure refunds the full amount. -/
def internal_ft_resolve_burn (ft : FungibleToken) (owner_id : AccountId) (amount : Nat)
    (contract_id : AccountId) (pr : PromiseResult) : Option (FungibleToken × Nat × Nat) :=
  match pr with
  | .notReady => none
  | .successful v =>
    match v with
    | some unused => resolveRefund ft owner_id amount contract_id (min amount unused)
    | none => resolveRefund ft owner_id amount contract_id amount
  | .failed => resolveRefund ft owner_id amount contract_id amount

/-- Gas constants from src/src/ntft/core_impl.rs lines 20-21. -/
def GAS_FOR_RESOLVE_TRANSFER : Nat := 5000000000000

/-- Gas required before `ft_burn_call` will run. -/
def GAS_FOR_FT_TRANSFER_CALL : Nat := 25000000000000 + GAS_FOR_RESOLVE_TRANSFER

/-- Observable steps of `ft_burn_call`: the ledger debit (carrying the ledger
state right after it) and the issued remote acceptance call (carrying the
ledger state at the moment the call is issued). -/
inductive BurnEv
  | debit (sender : AccountId) (contract : AccountId) (amount : Nat)
      (ledgerAfter : FungibleToken)
  | remoteCall (contract : AccountId) (sender : AccountId) (amount : Nat)
      (ledgerAtIssue : FungibleToken)
deriving DecidableEq, Repr

/-- `ft_burn_call` from src/src/ntft/core_impl.rs lines 134-155: requires exactly
one attached yoctoNEAR and prepaid gas above `GAS_FOR_FT_TRANSFER_CALL`, debits
the caller, then issues the remote `ft_on_burn` call followed by the scheduled
`ft_resolve_burn` continuation.  The returned event list records, in order, the
committed debit and the issued remote call. -/
def ft_burn_call (ft : FungibleToken) (contract_id : AccountId) (amount : Nat)
    (attached_deposit : Nat) (prepaid_gas : Nat) (sender_id : AccountId) :
    Option (FungibleToken × List BurnEv) :=
  if attached_deposit = 1 then
    if GAS_FOR_FT_TRANSFER_CALL < prepaid_gas then
      match internal_withdraw ft sender_id amount (some contract_id) with
      | none => none
      | some ft' =>
          some (ft', [.debit sender_id contract_id amount ft',
            .remoteCall contract_id sender_id amount ft'])
    else none
  else none

/-- Splits a character list at every dot, the behavior of Rust
`str::split('.')`: always at least one piece, empty pieces kept. -/
def splitOnDot : List Char → List (List Char)
  | [] => [[]]
  | ch :: t =>
    match splitOnDot t with
    | [] => if ch = '.' then [[], [ch]] else [[ch]]
    | h :: rest => if ch = '.' then [] :: h :: rest else (ch :: h) :: rest

/-- `get_root_id` from src/src/utils.rs lines 11-18: the last two dot-separated
labels joined with a dot.  With fewer than two labels the source indexes out of
bounds and unwraps, which panics; `none` models that panic. -/
def get_root_id (contract_id : AccountId) : Option AccountId :=
  let arr := (splitOnDot contract_id.toList).map List.asString
  if h : 2 ≤ arr.length then
    some (arr.get ⟨arr.length - 2, by omega⟩ ++ "." ++ arr.get ⟨arr.length - 1, by omega⟩)
  else none

/-- Contract state from src/src/lib.rs lines 48-55 (the metadata descriptor is
out of scope and omitted; the `HashSet` allow-list is a list with membership). -/
structure Contract where
  token : FungibleToken
  owner_id : AccountId
  white_list : List AccountId
deriving DecidableEq, Repr

/-- The trust condition appearing verbatim in src/src/lib.rs line 138 and
src/src/internal.rs line 9:
`get_root_id(contract_id) == get_root_id(current_account_id) || white_list
contains contract_id`.  Both root computations run before the comparison, so a
panic in either (single-label id) aborts even for allow-listed sources. -/
def trusted_source (white_list : List AccountId) (current_id contract_id : AccountId) :
    Option Bool :=
  match get_root_id contract_id, get_root_id current_id with
  | some r, some rc => some (decide (r = rc ∨ contract_id ∈ white_list))
  | _, _ => none

/-- Modelled from the spec: `Account::is_registered` lives in the external
`near_non_transferable_token` crate, not under src/; per spec section 4.3 step 3
it reports whether the callers ledger entry already has a slot for the given
source, which decides whether a unit of registration storage is charged. -/
def source_slot_registered (account : SlotMap) (contract_id : AccountId) : Bool :=
  (alGet (some contract_id) account).isSome

/-- The filter loop of `ft_collect` (src/src/lib.rs lines 136-146): keeps a
candidate iff it is trusted, counts kept candidates without a slot, and
propagates the `get_root_id` panic (`none`) of any candidate. -/
def filterCollects (account : SlotMap) (white_list : List AccountId)
    (current_id : AccountId) : List AccountId → Option (List AccountId × Nat)
  | [] => some ([], 0)
  | cid :: rest =>
    match trusted_source white_list current_id cid with
    | none => none
    | some true =>
      match filterCollects account white_list current_id rest with
      | none => none
      | some (l, n) =>
          some (cid :: l, (if source_slot_registered account cid then 0 else 1) + n)
    | some false => filterCollects account white_list current_id rest

/-- Host environment of one `ft_collect` invocation.  Gas subtraction is
truncated at zero, so an underflowing budget always fails the strict
gas comparison (fail closed). -/
structure CollectEnv where
  sender : AccountId
  current_account_id : AccountId
  attached_deposit : Nat
  prepaid_gas : Nat
  storage_byte_cost : Nat
deriving DecidableEq, Repr

/-- Gas constants from src/src/lib.rs lines 75-78. -/
def THIS_FUNCTION_CALL_GAS : Nat := 50000000000000

/-- Per-source gas for one remote `collect_drip` call. -/
def COLLECT_DRIP_GAS : Nat := 10000000000000

/-- Fixed gas for the reconciliation step. -/
def RESOLVE_COLLECT_DRIP_GAS_BASE : Nat := 3000000000000

/-- Per-source gas for the reconciliation step. -/
def RESOLVE_COLLECT_DRIP_GAS_X : Nat := 2000000000000

/-- Registration phase of `ft_collect` (src/src/lib.rs lines 126-133).  The
`storage_balance` argument abstracts `storage_balance_of`, which lives in the
external crate: `some v` means the sender is storage-registered with available
credit `v`, `none` that they are not, in which case the attached deposit must
strictly exceed one registration cost and the sender is registered. -/
def regPhase (c : Contract) (env : CollectEnv) (storage_balance : Option Nat) :
    Except String (Nat × FungibleToken) :=
  match storage_balance with
  | some v => .ok (v, c.token)
  | none =>
    if c.token.account_storage_usage * env.storage_byte_cost < env.attached_deposit then
      match internal_register_account c.token env.sender with
      | none => .error "panic"
      | some t => .ok (0, t)
    else .error "not registered"

/-- `ft_collect` from src/src/lib.rs lines 122-166.  On success it returns the
updated contract together with the list of sources a remote `collect_drip`
call was issued to; an `.error` result models a panic, which reverts every
state write and revokes every created promise, so an erroring call issues
nothing.  Checks appear in source order: storage registration, trust filter,
storage-deposit charge for unregistered slots, gas budget, and finally the
non-empty batch assertion. -/
def ft_collect (c : Contract) (env : CollectEnv) (storage_balance : Option Nat)
    (collects : List AccountId) : Except String (Contract × List AccountId) :=
  match regPhase c env storage_balance with
  | .error e => .error e
  | .ok (sbal, token1) =>
    match alGet env.sender token1.accounts with
    | none => .error "panic"
    | some account =>
      match filterCollects account c.white_list env.current_account_id collects with
      | none => .error "panic"
      | some (fl, cnt) =>
        if token1.account_storage_usage * env.storage_byte_cost * cnt ≤
            env.attached_deposit + sbal then
          if fl.length * (COLLECT_DRIP_GAS + RESOLVE_COLLECT_DRIP_GAS_X) +
              RESOLVE_COLLECT_DRIP_GAS_BASE <
              env.prepaid_gas - THIS_FUNCTION_CALL_GAS then
            if 0 < fl.length then .ok ({ c with token := token1 }, fl)
            else .error "failed"
          else .error "not enough gas"
        else .error "not enough deposit"

/-- A deposit call made on the ledger: (account, amount, source contract). -/
abbrev DepositCall := AccountId × Nat × AccountId

/-- `internal_set_drip` from src/src/internal.rs lines 8-20: re-evaluates the
trust condition and, when it holds, credits the ledger with the computed
amount (with no special case for zero); an untrusted source is silently
skipped.  The returned list records the ledger deposit calls made. -/
def internal_set_drip (c : Contract) (current_id : AccountId) (balance : Nat)
    (contract_id : AccountId) (account_id : AccountId) :
    Option (Contract × List DepositCall) :=
  match trusted_source c.white_list current_id contract_id with
  | none => none
  | some true =>
    match internal_deposit c.token account_id balance (some contract_id) with
    | none => none
    | some t => some ({ c with token := t }, [(account_id, balance, contract_id)])
  | some false => some (c, [])

/-- Loop body of `resolve_collect` (src/src/resolver.rs lines 8-20), iterating
over the joined promise results from index `i`: a failed or not-ready result is
skipped, a successful payload is parsed with fallback 0, and positionally
matched against `collects`. -/
def resolveFrom (c : Contract) (current_id : AccountId) (collects : List AccountId)
    (account_id : AccountId) : List PromiseResult → Nat → Option (Contract × List DepositCall)
  | [], _ => some (c, [])
  | r :: rest, i =>
    match r with
    | .successful v =>
      match collects.get? i with
      | some cid =>
        match internal_set_drip c current_id (v.getD 0) cid account_id with
        | none => none
        | some (c1, calls) =>
          match resolveFrom c1 current_id collects account_id rest (i + 1) with
          | none => none
          | some (c2, calls2) => some (c2, calls ++ calls2)
      | none => resolveFrom c current_id collects account_id rest (i + 1)
    | _ => resolveFrom c current_id collects account_id rest (i + 1)

/-- `resolve_collect` from src/src/resolver.rs lines 7-21: the collection
reconciliation continuation. -/
def resolve_collect (c : Contract) (current_id : AccountId) (collects : List AccountId)
    (account_id : AccountId) (results : List PromiseResult) :
    Option (Contract × List DepositCall) :=
  resolveFrom c current_id collects account_id results 0

/-! ## Association list lemmas -/

theorem alGet_insert_self {α β : Type} [DecidableEq α] (k : α) (v : β) (l : List (α × β)) :
    alGet k (alInsert k v l) = some v := by
  induction l with
  | nil => simp [alInsert, alGet]
  | cons p t ih =>
    obtain ⟨k', v'⟩ := p
    by_cases h : k = k' <;> simp [alInsert, alGet, h, ih]

theorem alGet_insert_ne {α β : Type} [DecidableEq α] {k k' : α} (v : β) (l : List (α × β))
    (h : k ≠ k') : alGet k (alInsert k' v l) = alGet k l := by
  induction l with
  | nil => simp [alInsert, alGet, h]
  | cons p t ih =>
    obtain ⟨k₀, v₀⟩ := p
    by_cases h0 : k' = k₀
    · subst h0; simp [alInsert, alGet, h]
    · by_cases h1 : k = k₀ <;> simp [alInsert, alGet, h0, h1, ih]

theorem alInsert_same {α β : Type} [DecidableEq α] {k : α} {v : β} {l : List (α × β)}
    (h : alGet k l = some v) : alInsert k v l = l := by
  induction l with
  | nil => simp [alGet] at h
  | cons p t ih =>
    obtain ⟨k₀, v₀⟩ := p
    by_cases h0 : k = k₀
    · subst h0
      simp [alGet] at h
      simp [alInsert, h]
    · simp [alGet, h0] at h
      simp [alInsert, h0, ih h]

theorem sumF_cons {α β : Type} (f : β → Nat) (k : α) (v : β) (t : List (α × β)) :
    sumF f ((k, v) :: t) = f v + sumF f t := by
  simp [sumF]

theorem sumF_insert {α β : Type} [DecidableEq α] (f : β → Nat) (k : α) (v : β)
    (l : List (α × β)) :
    sumF f (alInsert k v l) + (alGet k l).elim 0 f = sumF f l + f v := by
  induction l with
  | nil => simp [alInsert, alGet, sumF]
  | cons p t ih =>
    obtain ⟨k₀, v₀⟩ := p
    by_cases h : k = k₀
    · subst h; simp [alInsert, alGet, sumF_cons]; omega
    · simp [alInsert, alGet, h, sumF_cons]; omega

/-! ## Inversion lemmas for the ledger operations -/

theorem internal_deposit_eq_some {ft ft' : FungibleToken} {a : AccountId} {amt : Nat}
    {c : Option AccountId} (h : internal_deposit ft a amt c = some ft') :
    ∃ account balance, alGet a ft.accounts = some account ∧
      alGet c account = some balance ∧ balance + amt < U128LIM ∧
      ft.total_supply + amt < U128LIM ∧
      ft' = ⟨alInsert a (alInsert c (balance + amt) account) ft.accounts,
        ft.total_supply + amt, ft.account_storage_usage⟩ := by
  unfold internal_deposit at h
  split at h
  · exact absurd h (by simp)
  next account hacc =>
    split at h
    · exact absurd h (by simp)
    next balance hbal =>
      split at h
      · exact absurd h (by simp)
      next nb hnb =>
        split at h
        · exact absurd h (by simp)
        next ts hts =>
          unfold checkedAdd at hnb hts
          split at hnb
          next h1 =>
            split at hts
            next h2 =>
              refine ⟨account, balance, hacc, hbal, h1, h2, ?_⟩
              cases hnb; cases hts
              exact (Option.some_inj.mp h).symm
            · exact absurd hts (by simp)
          · exact absurd hnb (by simp)

theorem internal_withdraw_eq_some {ft ft' : FungibleToken} {a : AccountId} {amt : Nat}
    {c : Option AccountId} (h : internal_withdraw ft a amt c = some ft') :
    ∃ account balance, alGet a ft.accounts = some account ∧
      alGet c account = some balance ∧ amt ≤ balance ∧ amt ≤ ft.total_supply ∧
      ft' = ⟨alInsert a (alInsert c (balance - amt) account) ft.accounts,
        ft.total_supply - amt, ft.account_storage_usage⟩ := by
  unfold internal_withdraw at h
  split at h
  · exact absurd h (by simp)
  next account hacc =>
    split at h
    · exact absurd h (by simp)
    next balance hbal =>
      split at h
      · exact absurd h (by simp)
      next nb hnb =>
        split at h
        · exact absurd h (by simp)
        next ts hts =>
          unfold checkedSub at hnb hts
          split at hnb
          next h1 =>
            split at hts
            next h2 =>
              refine ⟨account, balance, hacc, hbal, h1, h2, ?_⟩
              cases hnb; cases hts
              exact (Option.some_inj.mp h).symm
            · exact absurd hts (by simp)
          · exact absurd hnb (by simp)

theorem internal_deposit_none_iff (ft : FungibleToken) (a : AccountId) (amt : Nat)
    (c : Option AccountId) :
    internal_deposit ft a amt c = none ↔
      ¬(slotExists ft a c = true ∧ ft_balance_by_contract ft a c + amt < U128LIM ∧
        ft.total_supply + amt < U128LIM) := by
  cases hacc : alGet a ft.accounts with
  | none => simp [internal_deposit, slotExists, hacc]
  | some account =>
    cases hbal : alGet c account with
    | none => simp [internal_deposit, slotExists, hacc, hbal]
    | some b =>
      by_cases h1 : b + amt < U128LIM
      · by_cases h2 : ft.total_supply + amt < U128LIM
        · simp [internal_deposit, slotExists, ft_balance_by_contract, hacc, hbal,
            checkedAdd, h1, h2]
        · simp [internal_deposit, slotExists, ft_balance_by_contract, hacc, hbal,
            checkedAdd, h1, h2]
      · simp [internal_deposit, slotExists, ft_balance_by_contract, hacc, hbal,
          checkedAdd, h1]

theorem internal_withdraw_none_iff (ft : FungibleToken) (a : AccountId) (amt : Nat)
    (c : Option AccountId) :
    internal_withdraw ft a amt c = none ↔
      ¬(slotExists ft a c = true ∧ amt ≤ ft_balance_by_contract ft a c ∧
        amt ≤ ft.total_supply) := by
  cases hacc : alGet a ft.accounts with
  | none => simp [internal_withdraw, slotExists, hacc]
  | some account =>
    cases hbal : alGet c account with
    | none => simp [internal_withdraw, slotExists, hacc, hbal]
    | some b =>
      by_cases h1 : amt ≤ b
      · by_cases h2 : amt ≤ ft.total_supply
        · simp [internal_withdraw, slotExists, ft_balance_by_contract, hacc, hbal,
            checkedSub, h1, h2]
        · simp [internal_withdraw, slotExists, ft_balance_by_contract, hacc, hbal,
            checkedSub, h1, h2]
      · simp [internal_withdraw, slotExists, ft_balance_by_contract, hacc, hbal,
          checkedSub, h1]

/-! ## Conservation -/

theorem runOp_preserves_conservation {ft ft' : FungibleToken} {op : Op}
    (h : ft.total_supply = sumAll ft.accounts) (hr : runOp ft op = some ft') :
    ft'.total_supply = sumAll ft'.accounts := by
  cases op with
  | register a =>
    simp only [runOp] at hr
    unfold internal_register_account at hr
    split at hr
    · exact absurd hr (by simp)
    next hacc =>
      cases hr
      have e2 : sumAll (alInsert a [] ft.accounts) = sumAll ft.accounts := by
        have e := sumF_insert sumSlots a ([] : SlotMap) ft.accounts
        rw [hacc] at e
        simp only [sumAll]
        simpa [sumSlots, sumF] using e
      show ft.total_supply = sumAll (alInsert a [] ft.accounts)
      rw [e2]
      exact h
  | deposit a amt c =>
    simp only [runOp] at hr
    obtain ⟨account, b, hacc, hbal, _, _, hft'⟩ := internal_deposit_eq_some hr
    subst hft'
    have e1 := sumF_insert sumSlots a (alInsert c (b + amt) account) ft.accounts
    rw [hacc] at e1
    have e2 := sumF_insert (fun x => x) c (b + amt) account
    rw [hbal] at e2
    simp only [Option.elim] at e1 e2
    simp only [sumAll, sumSlots] at *
    omega
  | withdraw a amt c =>
    simp only [runOp] at hr
    obtain ⟨account, b, hacc, hbal, hle, hts, hft'⟩ := internal_withdraw_eq_some hr
    subst hft'
    have e1 := sumF_insert sumSlots a (alInsert c (b - amt) account) ft.accounts
    rw [hacc] at e1
    have e2 := sumF_insert (fun x => x) c (b - amt) account
    rw [hbal] at e2
    simp only [Option.elim] at e1 e2
    simp only [sumAll, sumSlots] at *
    omega

theorem runOps_preserves_conservation {ft ft' : FungibleToken} {ops : List Op}
    (h : ft.total_supply = sumAll ft.accounts) (hr : runOps ft ops = some ft') :
    ft'.total_supply = sumAll ft'.accounts := by
  induction ops generalizing ft with
  | nil =>
    unfold runOps at hr
    cases hr
    exact h
  | cons op t ih =>
    unfold runOps at hr
    split at hr
    · exact absurd hr (by simp)
    next ft₁ h₁ => exact ih (runOp_preserves_conservation h h₁) hr

/-- The traced deposit computes the same result as `internal_deposit`; the trace
only makes the order of checks and writes observable. -/
theorem internal_deposit_trace_agrees (ft : FungibleToken) (a : AccountId) (amt : Nat)
    (c : Option AccountId) :
    (internal_deposit_trace ft a amt c).2 = internal_deposit ft a amt c := by
  unfold internal_deposit_trace internal_deposit checkedAdd
  cases hacc : alGet a ft.accounts with
  | none => simp [hacc]
  | some account =>
    cases hbal : alGet c account with
    | none => simp [hacc, hbal]
    | some b =>
      by_cases h1 : b + amt < U128LIM
      · by_cases h2 : ft.total_supply + amt < U128LIM <;> simp [hacc, hbal, h1, h2]
      · simp [hacc, hbal, h1]

/-! ## Claim theorems -/

/-- C1: for every sequence of register, deposit, and withdraw operations that all
succeed, starting from the initial ledger state (total_supply = 0, no
accounts), total_supply equals the sum, over all (account, source) entries of
all registered accounts, of the stored balance. -/
theorem c1_conservation (ops : List Op) (ft : FungibleToken)
    (h : runOps initialToken ops = some ft) :
    ft.total_supply = sumAll ft.accounts :=
  runOps_preserves_conservation (by simp [initialToken, sumAll, sumF]) h

theorem c1_conservation_witness :
    runOps initialToken [Op.register "alice.near"] = some ⟨[("alice.near", [])], 0, 0⟩ ∧
    (⟨[("alice.near", [])], 0, 0⟩ : FungibleToken).total_supply =
      sumAll ([("alice.near", [])] : List (AccountId × SlotMap)) :=
  ⟨by decide, c1_conservation [Op.register "alice.near"] _ (by decide)⟩

/-- C3 counterexample: a deposit that fails on total-supply overflow still, in
source statement order, writes the slot balance and the accounts map before the
total-supply overflow check runs, so the claim that every check precedes every
write is false at this concrete input (the call nevertheless fails and, by
panic-revert, leaves no state change). -/
theorem c3_write_before_check_cex :
    (internal_deposit_trace ⟨[("alice.near", [(none, 0)])], U128LIM - 1, 0⟩
        "alice.near" 1 none).2 = none ∧
    (internal_deposit_trace ⟨[("alice.near", [(none, 0)])], U128LIM - 1, 0⟩
        "alice.near" 1 none).1 =
      [.checkBalanceOverflow true, .writeSlot, .writeAccounts,
        .checkSupplyOverflow false] ∧
    checksPrecedeWrites
      (internal_deposit_trace ⟨[("alice.near", [(none, 0)])], U128LIM - 1, 0⟩
        "alice.near" 1 none).1 = false := by
  decide

/-- C3 (amended): every deposit or withdraw call that fails leaves the entire
ledger state unchanged (the panic aborts the invocation, so the caller keeps
the prior state), and a call fails exactly when the account or slot is missing,
the slot arithmetic overflows or underflows, or the total-supply arithmetic
overflows or underflows; however the total-supply overflow check runs after the
slot write (see the counterexample), so the unchanged state is guaranteed by
abort-revert, not by every check preceding every write. -/
theorem c3_failed_mutation_rollback (ft : FungibleToken) (a : AccountId) (amt : Nat)
    (c : Option AccountId) :
    (internal_deposit ft a amt c = none →
      (internal_deposit ft a amt c).getD ft = ft) ∧
    (internal_withdraw ft a amt c = none →
      (internal_withdraw ft a amt c).getD ft = ft) ∧
    (internal_deposit ft a amt c = none ↔
      ¬(slotExists ft a c = true ∧ ft_balance_by_contract ft a c + amt < U128LIM ∧
        ft.total_supply + amt < U128LIM)) ∧
    (internal_withdraw ft a amt c = none ↔
      ¬(slotExists ft a c = true ∧ amt ≤ ft_balance_by_contract ft a c ∧
        amt ≤ ft.total_supply)) := by
  refine ⟨fun h => by rw [h]; rfl, fun h => by rw [h]; rfl, ?_, ?_⟩
  · exact internal_deposit_none_iff ft a amt c
  · exact internal_withdraw_none_iff ft a amt c

theorem c3_failed_mutation_rollback_witness :
    (internal_deposit ⟨[("alice.near", [(none, 0)])], U128LIM - 1, 0⟩ "alice.near" 1
        none).getD ⟨[("alice.near", [(none, 0)])], U128LIM - 1, 0⟩ =
      ⟨[("alice.near", [(none, 0)])], U128LIM - 1, 0⟩ :=
  (c3_failed_mutation_rollback ⟨[("alice.near", [(none, 0)])], U128LIM - 1, 0⟩
      "alice.near" 1 none).1 (by decide)

/-- C4 counterexample: depositing 5 for a registered account into a source slot
that has no entry yet does not succeed with a fresh slot of balance 5; it
panics (the source `expect` on the absent slot), refuting the claim that an
absent slot is treated as balance zero and that only account registration is
required. -/
theorem c4_absent_slot_deposit_cex :
    accountRegistered ⟨[("alice.near", [])], 0, 0⟩ "alice.near" = true ∧
    internal_deposit ⟨[("alice.near", [])], 0, 0⟩ "alice.near" 5 (some "b.near") =
      none := by
  decide

/-- C4 (amended): a deposit into an (account, source) slot with no entry yet
always fails (panics), even when the account itself is registered and the
amount would not overflow: deposit requires the slot to already exist, not just
the account. -/
theorem c4_deposit_requires_slot (ft : FungibleToken) (a : AccountId) (amt : Nat)
    (c : Option AccountId) (account : SlotMap)
    (hacc : alGet a ft.accounts = some account) (hslot : alGet c account = none) :
    internal_deposit ft a amt c = none := by
  simp [internal_deposit, hacc, hslot]

theorem c4_deposit_requires_slot_witness :
    internal_deposit ⟨[("alice.near", [])], 0, 0⟩ "alice.near" 7 (some "b.near") =
      none :=
  c4_deposit_requires_slot ⟨[("alice.near", [])], 0, 0⟩ "alice.near" 7 (some "b.near")
    [] (by decide) (by decide)

/-- C2: reconciliation of a redemption debit of `amount` on the post-debit state:
a successful remote call with a parseable unused-amount reply credits back
exactly min(amount, unused) to (caller, source); an outright failure or an
unparseable reply refunds the entire amount, restoring the pre-debit balance;
a parseable unused amount of 0 makes no ledger change at all.  The map
projection exposes the returned (used, burned) pair and the resulting slot
balance. -/
theorem c2_resolve_burn_refund (st0 st1 : FungibleToken) (caller src : AccountId)
    (amount : Nat)
    (hdebit : internal_withdraw st0 caller amount (some src) = some st1)
    (hb0 : ft_balance_by_contract st0 caller (some src) < U128LIM)
    (hts0 : st0.total_supply < U128LIM) :
    (∀ u, (internal_ft_resolve_burn st1 caller amount src (.successful (some u))).map
        (fun r => (r.2.1, r.2.2, ft_balance_by_contract r.1 caller (some src))) =
      some (amount - min amount u, 0,
        ft_balance_by_contract st1 caller (some src) + min amount u)) ∧
    (∀ pr, pr = PromiseResult.failed ∨ pr = PromiseResult.successful none →
      (internal_ft_resolve_burn st1 caller amount src pr).map
        (fun r => (r.2.1, r.2.2, ft_balance_by_contract r.1 caller (some src))) =
      some (0, 0, ft_balance_by_contract st0 caller (some src))) ∧
    internal_ft_resolve_burn st1 caller amount src (.successful (some 0)) =
      some (st1, amount, 0) := by
  obtain ⟨account, b, hacc, hbal, hle, hts, hst1⟩ := internal_withdraw_eq_some hdebit
  have hb : ft_balance_by_contract st0 caller (some src) = b := by
    simp [ft_balance_by_contract, hacc, hbal]
  rw [hb] at hb0
  subst hst1
  have hacc1 : alGet caller
      (alInsert caller (alInsert (some src) (b - amount) account) st0.accounts) =
      some (alInsert (some src) (b - amount) account) := alGet_insert_self ..
  have hbal1 : alGet (some src) (alInsert (some src) (b - amount) account) =
      some (b - amount) := alGet_insert_self ..
  have hfb1 : ft_balance_by_contract
      ⟨alInsert caller (alInsert (some src) (b - amount) account) st0.accounts,
        st0.total_supply - amount, st0.account_storage_usage⟩ caller (some src) =
      b - amount := by
    simp [ft_balance_by_contract, hacc1, hbal1]
  have key : ∀ r, r ≤ amount →
      (resolveRefund
          ⟨alInsert caller (alInsert (some src) (b - amount) account) st0.accounts,
            st0.total_supply - amount, st0.account_storage_usage⟩
          caller amount src r).map
        (fun x => (x.2.1, x.2.2, ft_balance_by_contract x.1 caller (some src))) =
      some (amount - r, 0, (b - amount) + r) := by
    intro r hr
    by_cases hr0 : 0 < r
    · have h1 : b - amount + r < U128LIM := by omega
      have h2 : st0.total_supply - amount + r < U128LIM := by omega
      have hdep : internal_deposit
          ⟨alInsert caller (alInsert (some src) (b - amount) account) st0.accounts,
            st0.total_supply - amount, st0.account_storage_usage⟩ caller r (some src) =
          some ⟨alInsert caller (alInsert (some src) (b - amount + r)
              (alInsert (some src) (b - amount) account))
              (alInsert caller (alInsert (some src) (b - amount) account) st0.accounts),
            st0.total_supply - amount + r, st0.account_storage_usage⟩ := by
        simp [internal_deposit, hacc1, hbal1, checkedAdd, h1, h2]
      simp [resolveRefund, hr0, hdep, ft_balance_by_contract, alGet_insert_self]
    · have hr0' : r = 0 := by omega
      subst hr0'
      simp [resolveRefund, hfb1]
  refine ⟨?_, ?_, ?_⟩
  · intro u
    simpa [internal_ft_resolve_burn, hfb1] using
      key (min amount u) (Nat.min_le_left amount u)
  · intro pr hpr
    have hbb : b - amount + amount = b := by omega
    rcases hpr with h | h <;> subst h
    · simpa [internal_ft_resolve_burn, hb, hbb] using key amount le_rfl
    · simpa [internal_ft_resolve_burn, hb, hbb] using key amount le_rfl
  · simp [internal_ft_resolve_burn, resolveRefund]

theorem c2_resolve_burn_refund_witness :
    (internal_ft_resolve_burn ⟨[("u.near", [(some "a.near", 6)])], 6, 0⟩ "u.near" 4
        "a.near" (.successful (some 3))).map
        (fun r => (r.2.1, r.2.2, ft_balance_by_contract r.1 "u.near" (some "a.near"))) =
      some (4 - min 4 3, 0,
        ft_balance_by_contract ⟨[("u.near", [(some "a.near", 6)])], 6, 0⟩ "u.near"
          (some "a.near") + min 4 3) ∧
    internal_ft_resolve_burn ⟨[("u.near", [(some "a.near", 6)])], 6, 0⟩ "u.near" 4
        "a.near" (.successful (some 0)) =
      some (⟨[("u.near", [(some "a.near", 6)])], 6, 0⟩, 4, 0) :=
  ⟨(c2_resolve_burn_refund ⟨[("u.near", [(some "a.near", 10)])], 10, 0⟩
      ⟨[("u.near", [(some "a.near", 6)])], 6, 0⟩ "u.near" "a.near" 4 (by decide)
      (by decide) (by decide)).1 3,
    (c2_resolve_burn_refund ⟨[("u.near", [(some "a.near", 10)])], 10, 0⟩
      ⟨[("u.near", [(some "a.near", 6)])], 6, 0⟩ "u.near" "a.near" 4 (by decide)
      (by decide) (by decide)).2.2⟩

/-- C6: every successful execution of `ft_burn_call` first commits the ledger
debit of (caller, source) by `amount` and only then issues the remote
acceptance call: the event list is exactly debit followed by remote call, and
the ledger state carried by the remote call is the post-debit state, whose
slot balance is the pre-debit balance minus `amount`. -/
theorem c6_debit_before_remote_call (ft ft' : FungibleToken) (contract_id : AccountId)
    (amount attached prepaid : Nat) (sender : AccountId) (evs : List BurnEv)
    (h : ft_burn_call ft contract_id amount attached prepaid sender = some (ft', evs)) :
    internal_withdraw ft sender amount (some contract_id) = some ft' ∧
    evs = [.debit sender contract_id amount ft',
      .remoteCall contract_id sender amount ft'] ∧
    ft_balance_by_contract ft' sender (some contract_id) + amount =
      ft_balance_by_contract ft sender (some contract_id) := by
  unfold ft_burn_call at h
  split at h
  · split at h
    · split at h
      · simp at h
      next ft₁ hw =>
        rw [Option.some_inj] at h
        obtain ⟨h1, h2⟩ := Prod.mk.injEq .. |>.mp h
        subst h1
        refine ⟨hw, h2.symm, ?_⟩
        obtain ⟨account, b, hacc, hbal, hle, _, hft₁⟩ := internal_withdraw_eq_some hw
        subst hft₁
        simp [ft_balance_by_contract, hacc, hbal, alGet_insert_self]
        omega
    · simp at h
  · simp at h

theorem c6_debit_before_remote_call_witness :
    internal_withdraw ⟨[("u.near", [(some "a.near", 10)])], 10, 0⟩ "u.near" 4
        (some "a.near") = some ⟨[("u.near", [(some "a.near", 6)])], 6, 0⟩ ∧
    [BurnEv.debit "u.near" "a.near" 4 ⟨[("u.near", [(some "a.near", 6)])], 6, 0⟩,
        BurnEv.remoteCall "a.near" "u.near" 4
          ⟨[("u.near", [(some "a.near", 6)])], 6, 0⟩] =
      [BurnEv.debit "u.near" "a.near" 4 ⟨[("u.near", [(some "a.near", 6)])], 6, 0⟩,
        BurnEv.remoteCall "a.near" "u.near" 4
          ⟨[("u.near", [(some "a.near", 6)])], 6, 0⟩] ∧
    ft_balance_by_contract ⟨[("u.near", [(some "a.near", 6)])], 6, 0⟩ "u.near"
        (some "a.near") + 4 =
      ft_balance_by_contract ⟨[("u.near", [(some "a.near", 10)])], 10, 0⟩ "u.near"
        (some "a.near") :=
  c6_debit_before_remote_call ⟨[("u.near", [(some "a.near", 10)])], 10, 0⟩
    ⟨[("u.near", [(some "a.near", 6)])], 6, 0⟩ "a.near" 4 1 40000000000000 "u.near"
    _ (by decide)

/-- C5 counterexample: with a single-label candidate ("near") in the list, the
whole `ft_collect` request aborts (the root computation panics inside the
filter), even though the same request without that untrusted candidate
succeeds — refuting the claim that every untrusted candidate is silently
dropped and never aborts the whole request. -/
theorem c5_untrusted_candidate_aborts_cex :
    ft_collect ⟨⟨[("u.near", [(some "a.drip.near", 0)])], 0, 0⟩, "o.near", []⟩
        ⟨"u.near", "drip.near", 0, 100000000000000, 1⟩ (some 0)
        ["near", "a.drip.near"] = .error "panic" ∧
    ft_collect ⟨⟨[("u.near", [(some "a.drip.near", 0)])], 0, 0⟩, "o.near", []⟩
        ⟨"u.near", "drip.near", 0, 100000000000000, 1⟩ (some 0) ["a.drip.near"] =
      .ok (⟨⟨[("u.near", [(some "a.drip.near", 0)])], 0, 0⟩, "o.near", []⟩,
        ["a.drip.near"]) :=
  ⟨rfl, rfl⟩

/-- C5 (amended): when every candidate (and the system account) has at least two
dot-separated labels, the filter keeps exactly the candidates whose two-label
root equals the system account root or that are in the allow-list, silently
dropping the rest without aborting; a candidate with fewer than two labels
instead aborts the whole request (see the counterexample). -/
theorem c5_filter_keeps_exactly_trusted (account : SlotMap) (wl : List AccountId)
    (cur : AccountId) (collects : List AccountId)
    (hcur : (get_root_id cur).isSome = true)
    (hall : ∀ cid ∈ collects, (get_root_id cid).isSome = true) :
    (filterCollects account wl cur collects).map Prod.fst =
      some (collects.filter fun cid =>
        decide (get_root_id cid = get_root_id cur ∨ cid ∈ wl)) := by
  induction collects with
  | nil => simp [filterCollects]
  | cons cid rest ih =>
    have hrest : ∀ x ∈ rest, (get_root_id x).isSome = true := fun x hx =>
      hall x (List.mem_cons_of_mem _ hx)
    have hc : (get_root_id cid).isSome = true := hall cid (List.mem_cons_self _ _)
    obtain ⟨r, hr⟩ := Option.isSome_iff_exists.mp hc
    obtain ⟨rc, hrc⟩ := Option.isSome_iff_exists.mp hcur
    have ihr := ih hrest
    have hPiff : (get_root_id cid = get_root_id cur ∨ cid ∈ wl) ↔
        (r = rc ∨ cid ∈ wl) := by
      rw [hr, hrc]
      simp
    have hts : trusted_source wl cur cid = some (decide (r = rc ∨ cid ∈ wl)) := by
      simp [trusted_source, hr, hrc]
    by_cases hP : r = rc ∨ cid ∈ wl
    · have hd : decide (r = rc ∨ cid ∈ wl) = true := decide_eq_true hP
      have hkeep : List.filter (fun x =>
          decide (get_root_id x = get_root_id cur ∨ x ∈ wl)) (cid :: rest) =
          cid :: List.filter (fun x =>
            decide (get_root_id x = get_root_id cur ∨ x ∈ wl)) rest :=
        List.filter_cons_of_pos (decide_eq_true (hPiff.mpr hP))
      rw [hkeep]
      cases hf : filterCollects account wl cur rest with
      | none =>
        rw [hf] at ihr
        simp at ihr
      | some p =>
        obtain ⟨l, n⟩ := p
        rw [hf] at ihr
        simp only [Option.map_some', Option.some.injEq] at ihr
        simp only [filterCollects, hts, hd, hf, Option.map_some', Option.some.injEq]
        rw [ihr]
    · have hd : decide (r = rc ∨ cid ∈ wl) = false := decide_eq_false hP
      have hdrop : List.filter (fun x =>
          decide (get_root_id x = get_root_id cur ∨ x ∈ wl)) (cid :: rest) =
          List.filter (fun x =>
            decide (get_root_id x = get_root_id cur ∨ x ∈ wl)) rest :=
        List.filter_cons_of_neg (by
          simp only [decide_eq_true_eq]
          exact fun hh => hP (hPiff.mp hh))
      rw [hdrop]
      simp only [filterCollects, hts, hd]
      exact ihr

theorem c5_filter_keeps_exactly_trusted_witness :
    (filterCollects [] ["w.list.near"] "drip.near"
        ["a.drip.near", "b.near", "w.list.near"]).map Prod.fst =
      some (["a.drip.near", "b.near", "w.list.near"].filter fun cid =>
        decide (get_root_id cid = get_root_id "drip.near" ∨
          cid ∈ ["w.list.near"])) :=
  c5_filter_keeps_exactly_trusted [] ["w.list.near"] "drip.near"
    ["a.drip.near", "b.near", "w.list.near"] (by decide) (by decide)

/-- C7: a collection request that passes registration, filtering and the storage
deposit charge but whose filtered source count needs more gas than remains
available for the per-source remote calls plus the fixed reconciliation cost
fails with the budget error; the erroring call issues zero remote calls (every
promise created by a panicking NEAR call is revoked, which the embedding
models by returning no issued-call list on error). -/
theorem c7_insufficient_gas_rejected (c : Contract) (env : CollectEnv)
    (storage_balance : Option Nat) (collects fl : List AccountId) (cnt sbal : Nat)
    (token1 : FungibleToken) (account : SlotMap)
    (h1 : regPhase c env storage_balance = .ok (sbal, token1))
    (h2 : alGet env.sender token1.accounts = some account)
    (h3 : filterCollects account c.white_list env.current_account_id collects =
      some (fl, cnt))
    (h4 : token1.account_storage_usage * env.storage_byte_cost * cnt ≤
      env.attached_deposit + sbal)
    (h5 : ¬(fl.length * (COLLECT_DRIP_GAS + RESOLVE_COLLECT_DRIP_GAS_X) +
      RESOLVE_COLLECT_DRIP_GAS_BASE < env.prepaid_gas - THIS_FUNCTION_CALL_GAS)) :
    ft_collect c env storage_balance collects = .error "not enough gas" := by
  unfold ft_collect
  rw [h1]
  simp [h2, h3, h4, h5]

theorem c7_insufficient_gas_rejected_witness :
    ft_collect ⟨⟨[("u.near", [(some "a.drip.near", 0)])], 0, 0⟩, "o.near", []⟩
        ⟨"u.near", "drip.near", 0, 60000000000000, 1⟩ (some 0) ["a.drip.near"] =
      .error "not enough gas" :=
  c7_insufficient_gas_rejected
    ⟨⟨[("u.near", [(some "a.drip.near", 0)])], 0, 0⟩, "o.near", []⟩
    ⟨"u.near", "drip.near", 0, 60000000000000, 1⟩ (some 0) ["a.drip.near"]
    ["a.drip.near"] 0 0 ⟨[("u.near", [(some "a.drip.near", 0)])], 0, 0⟩
    [(some "a.drip.near", 0)] rfl rfl rfl (by decide) (by decide)

/-- C8: `ft_collect` never succeeds silently with nothing to do: every successful
invocation issued at least one remote call, so a request whose filtered source
list is empty (all candidates rejected or input empty) necessarily fails. -/
theorem c8_empty_filtered_fails (c c' : Contract) (env : CollectEnv)
    (storage_balance : Option Nat) (collects issued : List AccountId)
    (h : ft_collect c env storage_balance collects = .ok (c', issued)) :
    issued ≠ [] := by
  unfold ft_collect at h
  split at h
  · simp at h
  · split at h
    · simp at h
    · split at h
      · simp at h
      next fl cnt hf =>
        split at h
        · split at h
          · split at h
            next hlen =>
              rw [Except.ok.injEq] at h
              obtain ⟨h1, h2⟩ := Prod.mk.injEq .. |>.mp h
              subst h2
              intro hnil
              rw [hnil] at hlen
              simp at hlen
            · simp at h
          · simp at h
        · simp at h

theorem c8_empty_filtered_fails_witness :
    ft_collect ⟨⟨[("u.near", [(some "a.drip.near", 0)])], 0, 0⟩, "o.near", []⟩
        ⟨"u.near", "drip.near", 0, 100000000000000, 1⟩ (some 0) ["a.drip.near"] =
      .ok (⟨⟨[("u.near", [(some "a.drip.near", 0)])], 0, 0⟩, "o.near", []⟩,
        ["a.drip.near"]) ∧
    (["a.drip.near"] : List AccountId) ≠ [] :=
  ⟨rfl, c8_empty_filtered_fails
    ⟨⟨[("u.near", [(some "a.drip.near", 0)])], 0, 0⟩, "o.near", []⟩
    ⟨⟨[("u.near", [(some "a.drip.near", 0)])], 0, 0⟩, "o.near", []⟩
    ⟨"u.near", "drip.near", 0, 100000000000000, 1⟩ (some 0) ["a.drip.near"]
    ["a.drip.near"] rfl⟩

/-- A successful `internal_set_drip` leaves the allow-list unchanged and only
makes ledger deposit calls whose source passes the trust condition. -/
theorem internal_set_drip_inv {c c₁ : Contract} {cur cid a : AccountId} {amt : Nat}
    {calls : List DepositCall}
    (h : internal_set_drip c cur amt cid a = some (c₁, calls)) :
    c₁.white_list = c.white_list ∧
      ∀ x ∈ calls, trusted_source c.white_list cur x.2.2 = some true := by
  unfold internal_set_drip at h
  split at h
  · simp at h
  next htr =>
    split at h
    · simp at h
    · rw [Option.some_inj] at h
      obtain ⟨h1, h2⟩ := Prod.mk.injEq .. |>.mp h
      subst h1 h2
      refine ⟨rfl, ?_⟩
      intro x hx
      rw [List.mem_singleton] at hx
      subst hx
      exact htr
  next htr =>
    rw [Option.some_inj] at h
    obtain ⟨h1, h2⟩ := Prod.mk.injEq .. |>.mp h
    subst h1 h2
    exact ⟨rfl, by simp⟩

/-- Every deposit call produced by the reconciliation loop is to a source that
passes the trust condition against the reconciliation-time allow-list. -/
theorem resolveFrom_trusted {cur account_id : AccountId} {collects : List AccountId} :
    ∀ (results : List PromiseResult) (c c' : Contract) (i : Nat)
      (calls : List DepositCall),
      resolveFrom c cur collects account_id results i = some (c', calls) →
      c'.white_list = c.white_list ∧
        ∀ x ∈ calls, trusted_source c.white_list cur x.2.2 = some true := by
  intro results
  induction results with
  | nil =>
    intro c c' i calls h
    unfold resolveFrom at h
    rw [Option.some_inj] at h
    obtain ⟨h1, h2⟩ := Prod.mk.injEq .. |>.mp h
    subst h1 h2
    exact ⟨rfl, by simp⟩
  | cons r rest ih =>
    intro c c' i calls h
    unfold resolveFrom at h
    split at h
    next v =>
      split at h
      next cid hcid =>
        split at h
        · simp at h
        next c₁ calls₁ hset =>
          split at h
          · simp at h
          next c₂ calls₂ hrec =>
            rw [Option.some_inj] at h
            obtain ⟨h1, h2⟩ := Prod.mk.injEq .. |>.mp h
            subst h1 h2
            obtain ⟨hw₁, htr₁⟩ := internal_set_drip_inv hset
            obtain ⟨hw₂, htr₂⟩ := ih c₁ c₂ (i + 1) calls₂ hrec
            refine ⟨hw₂.trans hw₁, ?_⟩
            intro x hx
            rw [List.mem_append] at hx
            rcases hx with hx | hx
            · exact htr₁ x hx
            · rw [hw₁] at htr₂
              exact htr₂ x hx
      · exact ih c c' (i + 1) calls h
    · exact ih c c' (i + 1) calls h

/-- C9 counterexample: a zero computed credit for a trusted source still performs
a ledger deposit call (with amount 0) — the code has no special case for zero —
refuting the claim that no deposit call is made; the ledger state is unchanged
only because the deposited amount is zero. -/
theorem c9_zero_amount_deposit_call_cex :
    internal_set_drip ⟨⟨[("u.near", [(some "x.drip.near", 7)])], 7, 0⟩, "o.near", []⟩
        "drip.near" 0 "x.drip.near" "u.near" =
      some (⟨⟨[("u.near", [(some "x.drip.near", 7)])], 7, 0⟩, "o.near", []⟩,
        [("u.near", 0, "x.drip.near")]) ∧
    ([("u.near", 0, "x.drip.near")] : List DepositCall) ≠ [] := by
  exact ⟨rfl, by simp⟩

/-- C9 (amended): a position whose computed credit amount is zero (including an
unparseable payload parsed as zero) still performs the deposit call when the
source is trusted; because the amount is zero, the resulting contract state is
exactly the prior state, so the ledger entry for the (account, source) pair is
unchanged.  (Only an untrusted source skips the deposit call.) -/
theorem c9_zero_amount_state_unchanged (c : Contract) (cur cid a : AccountId)
    (account : SlotMap) (b : Nat)
    (ht : trusted_source c.white_list cur cid = some true)
    (hacc : alGet a c.token.accounts = some account)
    (hb : alGet (some cid) account = some b)
    (hblim : b < U128LIM) (hts : c.token.total_supply < U128LIM) :
    internal_set_drip c cur 0 cid a = some (c, [(a, 0, cid)]) := by
  have hdep : internal_deposit c.token a 0 (some cid) = some c.token := by
    have h1 : b + 0 < U128LIM := by omega
    have h2 : c.token.total_supply + 0 < U128LIM := by omega
    simp only [internal_deposit, hacc, hb, checkedAdd, h1, h2, if_pos]
    rw [Nat.add_zero, Nat.add_zero, alInsert_same hb, alInsert_same hacc]
  simp only [internal_set_drip, ht, hdep]

theorem c9_zero_amount_state_unchanged_witness :
    internal_set_drip ⟨⟨[("v.near", [(some "y.drip.near", 3)])], 3, 0⟩, "o.near", []⟩
        "drip.near" 0 "y.drip.near" "v.near" =
      some (⟨⟨[("v.near", [(some "y.drip.near", 3)])], 3, 0⟩, "o.near", []⟩,
        [("v.near", 0, "y.drip.near")]) :=
  c9_zero_amount_state_unchanged
    ⟨⟨[("v.near", [(some "y.drip.near", 3)])], 3, 0⟩, "o.near", []⟩ "drip.near"
    "y.drip.near" "v.near" [(some "y.drip.near", 3)] 3 rfl rfl rfl (by decide)
    (by decide)

/-- C10: every ledger credit performed by the collection reconciliation goes only
to a source that passes the trust check (two-label root equal to the system
root, or allow-listed) evaluated at reconciliation time against the
reconciliation-time allow-list; and a source failing the trust check receives
no credit, silently and without error. -/
theorem c10_reconciliation_trust_gate (c c' : Contract) (cur account_id : AccountId)
    (collects : List AccountId) (results : List PromiseResult)
    (calls : List DepositCall)
    (h : resolve_collect c cur collects account_id results = some (c', calls)) :
    (∀ x ∈ calls, trusted_source c.white_list cur x.2.2 = some true) ∧
    (∀ (c₀ : Contract) (cid a : AccountId) (amt : Nat),
      trusted_source c₀.white_list cur cid = some false →
      internal_set_drip c₀ cur amt cid a = some (c₀, [])) := by
  refine ⟨(resolveFrom_trusted results c c' 0 calls h).2, ?_⟩
  intro c₀ cid a amt h₀
  simp only [internal_set_drip, h₀]

theorem c10_reconciliation_trust_gate_witness :
    trusted_source ([] : List AccountId) "drip.near" "a.drip.near" = some true ∧
    internal_set_drip ⟨⟨[("u.near", [(some "a.drip.near", 0)])], 0, 0⟩, "o.near", []⟩
        "drip.near" 5 "b.near" "u.near" =
      some (⟨⟨[("u.near", [(some "a.drip.near", 0)])], 0, 0⟩, "o.near", []⟩, []) :=
  ⟨(c10_reconciliation_trust_gate
      ⟨⟨[("u.near", [(some "a.drip.near", 0)])], 0, 0⟩, "o.near", []⟩
      ⟨⟨[("u.near", [(some "a.drip.near", 2)])], 2, 0⟩, "o.near", []⟩
      "drip.near" "u.near" ["a.drip.near", "b.near"]
      [.successful (some 2), .successful (some 3)]
      [("u.near", 2, "a.drip.near")] rfl).1 ("u.near", 2, "a.drip.near")
      (by simp),
    (c10_reconciliation_trust_gate
      ⟨⟨[("u.near", [(some "a.drip.near", 0)])], 0, 0⟩, "o.near", []⟩
      ⟨⟨[("u.near", [(some "a.drip.near", 2)])], 2, 0⟩, "o.near", []⟩
      "drip.near" "u.near" ["a.drip.near", "b.near"]
      [.successful (some 2), .successful (some 3)]
      [("u.near", 2, "a.drip.near")] rfl).2
      ⟨⟨[("u.near", [(some "a.drip.near", 0)])], 0, 0⟩, "o.near", []⟩
      "b.near" "u.near" 5 rfl⟩

end Drip
